import Mathlib

/-
Verification of the UUIDv7 generator (uuid7.c) against its specification.

The C code is shallowly embedded over natural numbers.  Translation
conventions, applied uniformly:
  - `uint64_t` / `uint16_t` arithmetic is Nat arithmetic reduced modulo
    `2 ^ 64` (resp. `2 ^ 16`) exactly where the C operation can wrap;
  - `x >> k` becomes `x / 2 ^ k`, `x & (2 ^ k - 1)` becomes `x % 2 ^ k`,
    and `a | b` of operands occupying disjoint bit ranges becomes `a + b`;
  - the randomness provider is an infinite byte stream `r : Nat → Nat`
    (each byte taken `% 256`) together with a cursor counting how many
    bytes have been consumed so far; `_fill_random(&x, 2)` on the
    little-endian targets this library builds for yields the value
    `r c + 256 * r (c+1)`;
  - the generator is modelled one uncontended call at a time: the CAS in
    `uuid7_gen` succeeds on the first iteration, so a call is a function
    of the previous register value, the clock sample and the byte stream.
-/

namespace Uuid7

/-- `V7_SEQ_MASK + 1`: size of the 12-bit sequence space. -/
def seqSpace : ℕ := 4096

/-- `V7_PACK(ms, seq)` from uuid7.c: `((uint64_t)ms << 12) | (seq & 0x0FFF)`,
  with the `uint64_t` wrap of the shift made explicit. -/
def pack (ms seq : ℕ) : ℕ := (ms * 4096 + seq % 4096) % 2 ^ 64

/-- The value `_fill_random(&rnd, sizeof(uint16_t))` leaves in `rnd` when the
  stream provides bytes `r c, r (c+1)` (little-endian byte order of the
  supported targets). -/
def read16 (r : ℕ → ℕ) (c : ℕ) : ℕ := r c % 256 + 256 * (r (c + 1) % 256)

/-- The 12-bit draw of uuid7.c lines 195-198 / 215-218: mask the sampled
  16-bit value to 12 bits and remap a drawn zero to one. -/
def rndDraw (r : ℕ → ℕ) (c : ℕ) : ℕ :=
  if read16 r c % 4096 = 0 then 1 else read16 r c % 4096

/-- The first candidate word formed by an attempt of `uuid7_gen`
  (line 200): `V7_PACK(use_ms, rnd)` with `use_ms = max(now_ms, prev_ms)`. -/
def candidate0 (prev now : ℕ) (r : ℕ → ℕ) (c : ℕ) : ℕ :=
  pack (max now (prev / 4096)) (rndDraw r c)

/-- The word an uncontended `uuid7_gen` call commits to `g_v7_state` by CAS
  (uuid7.c lines 183-231), as a function of the previously committed word
  `prev`, the clock sample `now` and the random byte stream at cursor `c`. -/
def stepWord (prev now : ℕ) (r : ℕ → ℕ) (c : ℕ) : ℕ :=
  if candidate0 prev now r c ≤ prev then
    if prev % 4096 ≠ 4095 then (prev + 1) % 2 ^ 64
    else pack (prev / 4096 + 1) (rndDraw r (c + 2))
  else candidate0 prev now r c

/-- Cursor position of the stream when the tail bytes `rb` are drawn: the
  overflow branch (lines 213-219) consumes a second 16-bit sample. -/
def rbCursor (prev now : ℕ) (r : ℕ → ℕ) (c : ℕ) : ℕ :=
  if candidate0 prev now r c ≤ prev then
    if prev % 4096 ≠ 4095 then c + 2 else c + 4
  else c + 2

/-- The byte encoder of uuid7.c lines 246-262: 48-bit big-endian `ms`,
  version nibble and sequence, variant bits and random tail. -/
def encodeBytes (ms seq : ℕ) (rb : ℕ → ℕ) : List ℕ :=
  [ ms / 2 ^ 40 % 256, ms / 2 ^ 32 % 256, ms / 2 ^ 24 % 256,
    ms / 2 ^ 16 % 256, ms / 2 ^ 8 % 256, ms % 256,
    7 * 16 + seq / 2 ^ 8 % 16,
    seq % 256,
    rb 0 % 64 + 128,
    rb 1, rb 2, rb 3, rb 4, rb 5, rb 6, rb 7 ]

/-- Result of one successful, uncontended `uuid7_gen` call with a valid
  output buffer: the committed word, the 16 output bytes and the stream
  cursor after the call. -/
structure GenResult where
  word : ℕ
  out : List ℕ
  cursor : ℕ
  deriving Repr, DecidableEq

/-- One uncontended `uuid7_gen` call with a valid output buffer
  (uuid7.c lines 170-265): commit a word, then fill the 8 tail bytes and
  encode.  After the CAS, `seq12` and `use_ms` are re-read from the
  committed word (lines 226-227). -/
def uuid7GenStep (prev now : ℕ) (r : ℕ → ℕ) (c : ℕ) : GenResult :=
  let w := stepWord prev now r c
  let c2 := rbCursor prev now r c
  ⟨w, encodeBytes (w / 4096) (w % 4096) (fun i => r (c2 + i) % 256), c2 + 8⟩

/-- Observable outcome of a `uuid7_gen` call, including the NULL-buffer
  path: return status, register value and stream cursor after the call,
  and the bytes written (none when the buffer is absent). -/
structure GenCall where
  ret : Int
  state : ℕ
  cursor : ℕ
  out : Option (List ℕ)
  deriving Repr, DecidableEq

/-- `uuid7_gen(out)`: `outNull` tells whether the caller passed NULL.
  Line 172 returns `-1` before touching any state; otherwise the call
  commits and writes (lines 183-264) and returns `0`. -/
def uuid7_gen (outNull : Bool) (prev now : ℕ) (r : ℕ → ℕ) (c : ℕ) : GenCall :=
  if outNull then ⟨-1, prev, c, none⟩
  else
    let g := uuid7GenStep prev now r c
    ⟨0, g.word, g.cursor, some g.out⟩

/-- `extract_ms` of the test suite: the first six output bytes read as a
  big-endian integer. -/
def extract_ms (u : List ℕ) : ℕ :=
  u.getD 0 0 * 2 ^ 40 + u.getD 1 0 * 2 ^ 32 + u.getD 2 0 * 2 ^ 24 +
  u.getD 3 0 * 2 ^ 16 + u.getD 4 0 * 2 ^ 8 + u.getD 5 0

/-- `extract_seq` of the test suite: `((u[6] & 0x0F) << 8) | u[7]`. -/
def extract_seq (u : List ℕ) : ℕ := u.getD 6 0 % 16 * 256 + u.getD 7 0

/-- The first eight output bytes read as a big-endian unsigned integer. -/
def first8BE (u : List ℕ) : ℕ :=
  u.getD 0 0 * 2 ^ 56 + u.getD 1 0 * 2 ^ 48 + u.getD 2 0 * 2 ^ 40 +
  u.getD 3 0 * 2 ^ 32 + u.getD 4 0 * 2 ^ 24 + u.getD 5 0 * 2 ^ 16 +
  u.getD 6 0 * 2 ^ 8 + u.getD 7 0

/-- The fixed byte script of `test_version_and_variant_bits`, extended past
  its end by the test double's fallback counter starting at `0x10`. -/
def scriptRng : ℕ → ℕ := fun i =>
  if i < 10 then [0x12, 0x34, 0xAA, 0xBC, 0xCD, 0xDE, 0xEF, 0x01, 0x23, 0x45].getD i 0
  else (0x10 + (i - 10)) % 256

/-- A randomness provider reference as stored in `g_uuid_rng_ptr`:
  either the built-in `_default_rng` or a caller-supplied function,
  identified abstractly. -/
inductive RngFn where
  | defaultFn : RngFn
  | custom : ℕ → RngFn
  deriving Repr, DecidableEq

/-- `uuid7_set_rng(fn)` acting on the provider slot (uuid7.c lines
  267-283): install `fn`, or the default when `fn` is NULL; return 0. -/
def uuid7_set_rng (fn : Option RngFn) (slot : Option RngFn) : Int × Option RngFn :=
  match fn with
  | some f => (0, some f)
  | none => (0, some RngFn.defaultFn)

/-- `uuid7_init(fn)` acting on the provider slot (uuid7.c lines 285-302):
  install `fn` when given; otherwise CAS the default into the slot only
  if the slot is still empty. -/
def uuid7_init (fn : Option RngFn) (slot : Option RngFn) : Int × Option RngFn :=
  match fn with
  | some f => (0, some f)
  | none =>
    match slot with
    | none => (0, some RngFn.defaultFn)
    | some p => (0, some p)

/-- Environment of the default randomness chain `_default_rng`
  (uuid7.c lines 316-356): how many bytes the `getrandom` syscall delivers
  before failing, whether `open("/dev/urandom")` succeeds, and how many
  bytes that device delivers before EOF or a read error. -/
structure OsEnv where
  grAvail : ℕ
  urOpen : Bool
  urAvail : ℕ
  deriving Repr, DecidableEq

/-- Number of leading buffer bytes `_default_rng(buf, n)` actually fills
  with fresh entropy before it returns: the getrandom loop fills up to
  `grAvail` bytes; on shortfall the fallback rereads the buffer from
  offset 0 out of `/dev/urandom` when it opens, stopping at `urAvail`
  bytes.  Every exit path is a plain `return` with no error report. -/
def default_rng_delivered (e : OsEnv) (n : ℕ) : ℕ :=
  let off := min e.grAvail n
  if off = n then n
  else if e.urOpen then
    if n ≤ e.urAvail then n else max off (min e.urAvail n)
  else off

/-! ### Helper lemmas -/

theorem rndDraw_bounds (r : ℕ → ℕ) (c : ℕ) :
    1 ≤ rndDraw r c ∧ rndDraw r c ≤ 4095 := by
  unfold rndDraw
  split_ifs with h <;> omega

theorem genStep_word (prev now : ℕ) (r : ℕ → ℕ) (c : ℕ) :
    (uuid7GenStep prev now r c).word = stepWord prev now r c := rfl

theorem genStep_cursor (prev now : ℕ) (r : ℕ → ℕ) (c : ℕ) :
    (uuid7GenStep prev now r c).cursor = rbCursor prev now r c + 8 := rfl

theorem genStep_out (prev now : ℕ) (r : ℕ → ℕ) (c : ℕ) :
    (uuid7GenStep prev now r c).out =
      encodeBytes (stepWord prev now r c / 4096) (stepWord prev now r c % 4096)
        (fun i => r (rbCursor prev now r c + i) % 256) := rfl

theorem encode_getD6 (ms seq : ℕ) (rb : ℕ → ℕ) :
    (encodeBytes ms seq rb).getD 6 0 = 7 * 16 + seq / 2 ^ 8 % 16 := rfl

theorem encode_getD7 (ms seq : ℕ) (rb : ℕ → ℕ) :
    (encodeBytes ms seq rb).getD 7 0 = seq % 256 := rfl

theorem encode_getD8 (ms seq : ℕ) (rb : ℕ → ℕ) :
    (encodeBytes ms seq rb).getD 8 0 = rb 0 % 64 + 128 := rfl

theorem encode_getD9 (ms seq : ℕ) (rb : ℕ → ℕ) :
    (encodeBytes ms seq rb).getD 9 0 = rb 1 := rfl

theorem encode_getD10 (ms seq : ℕ) (rb : ℕ → ℕ) :
    (encodeBytes ms seq rb).getD 10 0 = rb 2 := rfl

theorem encode_getD11 (ms seq : ℕ) (rb : ℕ → ℕ) :
    (encodeBytes ms seq rb).getD 11 0 = rb 3 := rfl

theorem encode_getD12 (ms seq : ℕ) (rb : ℕ → ℕ) :
    (encodeBytes ms seq rb).getD 12 0 = rb 4 := rfl

theorem encode_getD13 (ms seq : ℕ) (rb : ℕ → ℕ) :
    (encodeBytes ms seq rb).getD 13 0 = rb 5 := rfl

theorem encode_getD14 (ms seq : ℕ) (rb : ℕ → ℕ) :
    (encodeBytes ms seq rb).getD 14 0 = rb 6 := rfl

theorem encode_getD15 (ms seq : ℕ) (rb : ℕ → ℕ) :
    (encodeBytes ms seq rb).getD 15 0 = rb 7 := rfl

theorem extract_seq_encode (ms seq : ℕ) (rb : ℕ → ℕ) (h : seq < 4096) :
    extract_seq (encodeBytes ms seq rb) = seq := by
  unfold extract_seq
  rw [encode_getD6, encode_getD7]
  omega

theorem extract_ms_encode (ms seq : ℕ) (rb : ℕ → ℕ) :
    extract_ms (encodeBytes ms seq rb) = ms % 2 ^ 48 := by
  unfold extract_ms encodeBytes
  simp only [List.getD_cons_zero, List.getD_cons_succ]
  omega

theorem first8BE_encode (ms seq : ℕ) (rb : ℕ → ℕ) (h : seq < 4096) :
    first8BE (encodeBytes ms seq rb) = ms % 2 ^ 48 * 2 ^ 16 + 7 * 2 ^ 12 + seq := by
  unfold first8BE encodeBytes
  simp only [List.getD_cons_zero, List.getD_cons_succ]
  omega

theorem stepWord_seq_bounds (prev now : ℕ) (r : ℕ → ℕ) (c : ℕ) :
    1 ≤ stepWord prev now r c % 4096 ∧ stepWord prev now r c % 4096 ≤ 4095 := by
  have h1 := rndDraw_bounds r c
  have h2 := rndDraw_bounds r (c + 2)
  unfold stepWord candidate0 pack
  split_ifs with ha hb <;> omega

theorem stepWord_lt_u64 (prev now : ℕ) (r : ℕ → ℕ) (c : ℕ) :
    stepWord prev now r c < 2 ^ 64 := by
  unfold stepWord candidate0 pack
  split_ifs <;> omega

theorem stepWord_gt (prev now : ℕ) (r : ℕ → ℕ) (c : ℕ)
    (h64 : prev < 2 ^ 64) (hne : prev ≠ 2 ^ 64 - 1) :
    prev < stepWord prev now r c := by
  have h1 := rndDraw_bounds r c
  have h2 := rndDraw_bounds r (c + 2)
  unfold stepWord candidate0 pack
  split_ifs with ha hb <;> omega

/-- Shared fixed-field fact: byte 6 of any generated identifier has top
  nibble 7, and byte 8 has top two bits `10`. -/
theorem fixedFields_aux (prev now : ℕ) (r : ℕ → ℕ) (c : ℕ) :
    (uuid7GenStep prev now r c).out.getD 6 0 / 16 = 7 ∧
    (uuid7GenStep prev now r c).out.getD 8 0 / 64 = 2 := by
  rw [genStep_out, encode_getD6, encode_getD8]
  omega

/-! ### Claims -/

/-- Claim C10 (confirmed): the low 12 bits of every word a successful
  `uuid7_gen` call commits lie in `[1, 4095]`, on all three candidate
  paths, and the encoded sequence field of the output equals them. -/
theorem uuid7_seq_field_in_range (prev now : ℕ) (r : ℕ → ℕ) (c : ℕ) :
    1 ≤ (uuid7GenStep prev now r c).word % 4096 ∧
    (uuid7GenStep prev now r c).word % 4096 ≤ 4095 ∧
    extract_seq (uuid7GenStep prev now r c).out =
      (uuid7GenStep prev now r c).word % 4096 := by
  have h := stepWord_seq_bounds prev now r c
  refine ⟨h.1, h.2, ?_⟩
  rw [genStep_out, genStep_word]
  exact extract_seq_encode _ _ _ (by omega)

/-- Claim C4 (confirmed): a call that commits a timestamp field different
  from the previously committed one takes its sequence from a fresh
  12-bit draw of the Randomness Provider with zero remapped to one, so
  the committed and encoded sequence fields are never zero. -/
theorem uuid7_new_slot_seq_nonzero (prev now : ℕ) (r : ℕ → ℕ) (c : ℕ)
    (h64 : prev < 2 ^ 64)
    (h : (uuid7GenStep prev now r c).word / 4096 ≠ prev / 4096) :
    ((uuid7GenStep prev now r c).word % 4096 = rndDraw r c ∨
      (uuid7GenStep prev now r c).word % 4096 = rndDraw r (c + 2)) ∧
    1 ≤ (uuid7GenStep prev now r c).word % 4096 ∧
    extract_seq (uuid7GenStep prev now r c).out ≠ 0 := by
  have h1 := rndDraw_bounds r c
  have h2 := rndDraw_bounds r (c + 2)
  have hb := stepWord_seq_bounds prev now r c
  have hex : extract_seq (uuid7GenStep prev now r c).out =
      stepWord prev now r c % 4096 := by
    rw [genStep_out]
    exact extract_seq_encode _ _ _ (by omega)
  rw [genStep_word] at h ⊢
  refine ⟨?_, by omega, by rw [hex]; omega⟩
  unfold stepWord candidate0 pack at h ⊢
  split_ifs at h ⊢ with ha hbr <;> omega

/-- Witness for C4 at a concrete input entering a new millisecond slot. -/
theorem uuid7_new_slot_seq_nonzero_witness :
    ((uuid7GenStep 0 5 (fun _ => 7) 0).word % 4096 = rndDraw (fun _ => 7) 0 ∨
      (uuid7GenStep 0 5 (fun _ => 7) 0).word % 4096 = rndDraw (fun _ => 7) 2) ∧
    1 ≤ (uuid7GenStep 0 5 (fun _ => 7) 0).word % 4096 ∧
    extract_seq (uuid7GenStep 0 5 (fun _ => 7) 0).out ≠ 0 :=
  uuid7_new_slot_seq_nonzero 0 5 (fun _ => 7) 0 (by norm_num) (by decide)

/-- Claim C6 (confirmed): every identifier written by `uuid7_gen` carries
  version 7 in the top nibble of byte 6 and the RFC variant `10` in the
  top two bits of byte 8; the low nibble of byte 6 holds sequence bits
  11..8, byte 7 the low sequence bits, and the low 6 bits of byte 8 the
  low 6 bits of the first random tail byte, per the 16-byte layout. -/
theorem uuid7_fixed_fields (prev now : ℕ) (r : ℕ → ℕ) (c : ℕ) :
    (uuid7GenStep prev now r c).out.getD 6 0 / 16 = 7 ∧
    (uuid7GenStep prev now r c).out.getD 6 0 % 16 =
      (uuid7GenStep prev now r c).word % 4096 / 256 ∧
    (uuid7GenStep prev now r c).out.getD 7 0 =
      (uuid7GenStep prev now r c).word % 4096 % 256 ∧
    (uuid7GenStep prev now r c).out.getD 8 0 / 64 = 2 ∧
    (uuid7GenStep prev now r c).out.getD 8 0 % 64 =
      r (rbCursor prev now r c) % 256 % 64 ∧
    (uuid7GenStep prev now r c).out.getD 9 0 =
      r (rbCursor prev now r c + 1) % 256 ∧
    extract_ms (uuid7GenStep prev now r c).out =
      (uuid7GenStep prev now r c).word / 4096 % 2 ^ 48 ∧
    extract_seq (uuid7GenStep prev now r c).out =
      (uuid7GenStep prev now r c).word % 4096 := by
  have hb := stepWord_seq_bounds prev now r c
  rw [genStep_word, genStep_out, encode_getD6, encode_getD7, encode_getD8,
    encode_getD9, extract_ms_encode,
    extract_seq_encode _ _ _ (show stepWord prev now r c % 4096 < 4096 by omega)]
  simp only [Nat.add_zero]
  refine ⟨by omega, by omega, ?_, by omega, by omega, ?_, ?_, ?_⟩ <;> trivial

/-- Comparing the first eight encoded bytes of two identifiers whose
  committed timestamps fit in 48 bits reduces to comparing the words. -/
theorem first8BE_lt (w1 w2 : ℕ) (rb1 rb2 : ℕ → ℕ)
    (hlt : w1 < w2) (h1 : w1 / 4096 < 2 ^ 48) (h2 : w2 / 4096 < 2 ^ 48) :
    first8BE (encodeBytes (w1 / 4096) (w1 % 4096) rb1) <
      first8BE (encodeBytes (w2 / 4096) (w2 % 4096) rb2) := by
  rw [first8BE_encode _ _ _ (by omega), first8BE_encode _ _ _ (by omega)]
  omega

/-- Claim C1 counterexample: with the register at the all-ones word
  `2^64 - 1` (timestamp field `2^52 - 1`, sequence 4095), a successful
  call takes the overflow branch, the packed shift wraps, and the word it
  commits (1799 for the constant byte stream 7) is smaller than the word
  committed before it — the CAS-committed values are not strictly
  increasing as unsigned integers. -/
theorem uuid7_monotonic_cex :
    (uuid7GenStep (2 ^ 64 - 1) 0 (fun _ => 7) 0).word = 1799 ∧
    (uuid7GenStep (2 ^ 64 - 1) 0 (fun _ => 7) 0).word < 2 ^ 64 - 1 := by
  decide

/-- Claim C1 (corrected): provided the previously committed word is not
  the all-ones value `2^64 - 1`, the word committed by the next
  successful call is strictly greater; and when the committed timestamp
  fields also stay below `2^48`, the first 8 encoded bytes, read
  big-endian, strictly increase in commit order. -/
theorem uuid7_gen_monotonic (prev now1 now2 : ℕ) (r : ℕ → ℕ) (c : ℕ)
    (h64 : prev < 2 ^ 64) (hne : prev ≠ 2 ^ 64 - 1) :
    prev < (uuid7GenStep prev now1 r c).word ∧
    ((uuid7GenStep prev now1 r c).word ≠ 2 ^ 64 - 1 →
      (uuid7GenStep prev now1 r c).word <
        (uuid7GenStep (uuid7GenStep prev now1 r c).word now2 r
          (uuid7GenStep prev now1 r c).cursor).word) ∧
    ((uuid7GenStep prev now1 r c).word ≠ 2 ^ 64 - 1 →
      (uuid7GenStep prev now1 r c).word / 4096 < 2 ^ 48 →
      (uuid7GenStep (uuid7GenStep prev now1 r c).word now2 r
          (uuid7GenStep prev now1 r c).cursor).word / 4096 < 2 ^ 48 →
      first8BE (uuid7GenStep prev now1 r c).out <
        first8BE (uuid7GenStep (uuid7GenStep prev now1 r c).word now2 r
          (uuid7GenStep prev now1 r c).cursor).out) := by
  have s1 : prev < stepWord prev now1 r c := stepWord_gt prev now1 r c h64 hne
  have s1lt : stepWord prev now1 r c < 2 ^ 64 := stepWord_lt_u64 prev now1 r c
  refine ⟨s1, fun hne2 => stepWord_gt _ now2 r _ s1lt hne2, fun hne2 hm1 hm2 => ?_⟩
  rw [genStep_out, genStep_out]
  exact first8BE_lt _ _ _ _ (stepWord_gt _ now2 r _ s1lt hne2) hm1 hm2

/-- Witness for the amended C1 at a concrete input. -/
theorem uuid7_gen_monotonic_witness :
    0 < (uuid7GenStep 0 1 (fun _ => 7) 0).word :=
  (uuid7_gen_monotonic 0 1 2 (fun _ => 7) 0 (by norm_num) (by norm_num)).1

/-- Claim C2 counterexample.  First part: with the register holding
  `(ms 5, seq 1)` and the clock still at 5 (same millisecond slot), the
  call's random candidate wins and the committed sequence is 7, not
  `(1 + 1) mod 4096`.  Second part: with the slot exhausted (`(ms 5,
  seq 4095)`) and the clock still at 5, the call does not spin-wait: it
  commits a word in millisecond 6 immediately. -/
theorem uuid7_same_slot_policy_cex :
    (max 5 ((20481 : ℕ) / 4096) = (20481 : ℕ) / 4096 ∧
      (20481 : ℕ) % 4096 = 1 ∧
      (uuid7GenStep 20481 5 (fun i => if i = 0 then 7 else 0) 0).word % 4096 = 7 ∧
      (7 : ℕ) ≠ (1 + 1) % 4096) ∧
    ((24575 : ℕ) / 4096 = 5 ∧ (24575 : ℕ) % 4096 = 4095 ∧
      (uuid7GenStep 24575 5 (fun _ => 0) 0).word = 24577 ∧
      (24577 : ℕ) / 4096 = 6) := by
  decide

/-- Claim C2 (corrected): `uuid7_gen` first forms a candidate with a
  freshly drawn non-zero random sequence; only when that candidate does
  not exceed the last committed word does it fall back.  If the previous
  sequence is below 4095 the committed word is exactly `prev + 1`
  (sequence `prev_seq + 1`, same timestamp); if the previous sequence is
  4095 the call does not spin-wait but immediately commits in
  millisecond `prev_ms + 1` with a fresh non-zero random sequence. -/
theorem uuid7_same_slot_policy (prev now : ℕ) (r : ℕ → ℕ) (c : ℕ)
    (h64 : prev < 2 ^ 64) :
    (candidate0 prev now r c ≤ prev → prev % 4096 ≠ 4095 →
      (uuid7GenStep prev now r c).word = prev + 1 ∧
      (uuid7GenStep prev now r c).word % 4096 = prev % 4096 + 1 ∧
      (uuid7GenStep prev now r c).word / 4096 = prev / 4096) ∧
    (candidate0 prev now r c ≤ prev → prev % 4096 = 4095 →
      (uuid7GenStep prev now r c).word / 4096 = (prev / 4096 + 1) % 2 ^ 52 ∧
      (uuid7GenStep prev now r c).word % 4096 = rndDraw r (c + 2) ∧
      1 ≤ (uuid7GenStep prev now r c).word % 4096) ∧
    (prev < candidate0 prev now r c →
      (uuid7GenStep prev now r c).word = candidate0 prev now r c) := by
  have h1 := rndDraw_bounds r c
  have h2 := rndDraw_bounds r (c + 2)
  simp only [genStep_word]
  refine ⟨fun ha hb => ?_, fun ha hb => ?_, fun ha => ?_⟩
  · unfold stepWord
    rw [if_pos ha, if_pos hb]
    omega
  · unfold stepWord
    rw [if_pos ha, if_neg (by omega)]
    unfold pack
    omega
  · unfold stepWord
    rw [if_neg (by omega)]

/-- Witness for the amended C2 on the same-slot increment branch. -/
theorem uuid7_same_slot_policy_witness :
    (uuid7GenStep 23480 5 (fun _ => 7) 0).word = 23480 + 1 ∧
    (uuid7GenStep 23480 5 (fun _ => 7) 0).word % 4096 = 23480 % 4096 + 1 ∧
    (uuid7GenStep 23480 5 (fun _ => 7) 0).word / 4096 = 23480 / 4096 :=
  (uuid7_same_slot_policy 23480 5 (fun _ => 7) 0 (by norm_num)).1
    (by decide) (by decide)

/-- Claim C3 (code_bug): `_default_rng` has no error channel.  In an
  environment where the `getrandom` syscall fails at once and
  `/dev/urandom` cannot be opened it returns with 0 of the 8 requested
  tail bytes delivered (and with 3 of 8 when getrandom stops after 3
  bytes), yet `uuid7_gen` still returns success for every valid buffer —
  the entropy failure is never surfaced to the caller. -/
theorem uuid7_entropy_failure_ignored :
    default_rng_delivered ⟨0, false, 0⟩ 8 = 0 ∧
    default_rng_delivered ⟨3, false, 0⟩ 8 = 3 ∧
    default_rng_delivered ⟨3, false, 0⟩ 8 < 8 ∧
    (∀ (prev now : ℕ) (r : ℕ → ℕ) (c : ℕ), (uuid7_gen false prev now r c).ret = 0) :=
  ⟨by decide, by decide, by decide, fun prev now r c => rfl⟩

/-- Claim C5 counterexample: when the register sits in an exhausted slot
  (`(ms 9, seq 4095)`) with the clock at 9, the overflow branch consumes
  two extra script bytes before the tail is drawn, so byte 9 of the
  output is `0xDE`, not `script[3] = 0xBC`, and byte 8 is not
  `(script[2] & 0x3F) | 0x80`. -/
theorem uuid7_script_fidelity_cex :
    (40959 : ℕ) % 4096 = 4095 ∧
    (uuid7GenStep 40959 9 scriptRng 0).out.getD 9 0 = 0xDE ∧
    (uuid7GenStep 40959 9 scriptRng 0).out.getD 9 0 ≠ scriptRng 3 ∧
    (uuid7GenStep 40959 9 scriptRng 0).out.getD 8 0 ≠ scriptRng 2 % 64 + 128 := by
  decide

/-- Claim C5 (corrected): for a single uncontended call replaying the
  fixed script from its start, provided the call does not take the
  sequence-overflow branch (the random candidate exceeds the previous
  word, or the previous sequence is not 4095), byte 8 of the output is
  `(script[2] & 0x3F) | 0x80` and bytes 9..15 are `script[3..10]`
  verbatim. -/
theorem uuid7_script_fidelity (prev now : ℕ)
    (h : candidate0 prev now scriptRng 0 ≤ prev → prev % 4096 ≠ 4095) :
    (uuid7GenStep prev now scriptRng 0).out.getD 8 0 = scriptRng 2 % 64 + 128 ∧
    (uuid7GenStep prev now scriptRng 0).out.getD 9 0 = scriptRng 3 ∧
    (uuid7GenStep prev now scriptRng 0).out.getD 10 0 = scriptRng 4 ∧
    (uuid7GenStep prev now scriptRng 0).out.getD 11 0 = scriptRng 5 ∧
    (uuid7GenStep prev now scriptRng 0).out.getD 12 0 = scriptRng 6 ∧
    (uuid7GenStep prev now scriptRng 0).out.getD 13 0 = scriptRng 7 ∧
    (uuid7GenStep prev now scriptRng 0).out.getD 14 0 = scriptRng 8 ∧
    (uuid7GenStep prev now scriptRng 0).out.getD 15 0 = scriptRng 9 := by
  have hc : rbCursor prev now scriptRng 0 = 2 := by
    unfold rbCursor
    split_ifs with ha hb
    · rfl
    · exact absurd (h ha) hb
    · rfl
  refine ⟨?_, ?_, ?_, ?_, ?_, ?_, ?_, ?_⟩ <;>
    simp only [genStep_out, hc, encode_getD8, encode_getD9, encode_getD10,
      encode_getD11, encode_getD12, encode_getD13, encode_getD14, encode_getD15] <;>
    decide

/-- Witness for the amended C5 from the zero register state. -/
theorem uuid7_script_fidelity_witness :
    (uuid7GenStep 0 0 scriptRng 0).out.getD 8 0 = scriptRng 2 % 64 + 128 ∧
    (uuid7GenStep 0 0 scriptRng 0).out.getD 9 0 = scriptRng 3 :=
  ⟨(uuid7_script_fidelity 0 0 (by decide)).1,
    (uuid7_script_fidelity 0 0 (by decide)).2.1⟩

/-- Claim C7 (confirmed): a call with an absent output buffer returns the
  invalid-argument status `-1`, consumes no randomness, leaves the State
  Register unchanged, and a subsequent call with a valid buffer behaves
  exactly as if the failed call had never happened. -/
theorem uuid7_null_arg (prev now now2 : ℕ) (r : ℕ → ℕ) (c : ℕ) :
    uuid7_gen true prev now r c = ⟨-1, prev, c, none⟩ ∧
    uuid7_gen false (uuid7_gen true prev now r c).state now2 r
        (uuid7_gen true prev now r c).cursor =
      uuid7_gen false prev now2 r c :=
  ⟨rfl, rfl⟩

/-- Claim C8 (confirmed): `uuid7_init` is idempotent; with a NULL
  argument it never clobbers an already-configured provider, and it
  installs the default only when no provider is set. -/
theorem uuid7_init_no_clobber :
    (∀ (fn slot : Option RngFn),
      uuid7_init fn (uuid7_init fn slot).2 = uuid7_init fn slot) ∧
    (∀ p : RngFn, uuid7_init none (some p) = (0, some p)) ∧
    uuid7_init none none = (0, some RngFn.defaultFn) := by
  refine ⟨fun fn slot => ?_, fun p => rfl, rfl⟩
  cases fn with
  | some f => rfl
  | none =>
    cases slot with
    | none => rfl
    | some p => rfl

/-- Claim C9 (confirmed): `uuid7_set_rng` returns 0 for every argument;
  with a NULL argument it resets the provider slot to the built-in
  default, and a subsequent `uuid7_gen` call with any byte stream —
  in particular one produced by the default chain — still writes version
  7 in the top nibble of byte 6 and the RFC variant in byte 8. -/
theorem uuid7_set_rng_total_and_reset (prev now : ℕ) (r : ℕ → ℕ) (c : ℕ) :
    (∀ (fn slot : Option RngFn), (uuid7_set_rng fn slot).1 = 0) ∧
    (∀ slot : Option RngFn, (uuid7_set_rng none slot).2 = some RngFn.defaultFn) ∧
    (uuid7GenStep prev now r c).out.getD 6 0 / 16 = 7 ∧
    (uuid7GenStep prev now r c).out.getD 8 0 / 64 = 2 := by
  refine ⟨fun fn slot => ?_, fun slot => rfl,
    (fixedFields_aux prev now r c).1, (fixedFields_aux prev now r c).2⟩
  cases fn <;> rfl

end Uuid7
